import Mathlib

/-
Verification development for the InferX-ML repository (Flask backend plus
Streamlit prediction UI).  The definitions below are shallow embeddings of
the Python functions in src/streamlit_app/app.py and
src/backend/app/routes/models.py; the theorems settle the claims of the
specification against them.
-/

namespace InferX

/--
Scalar values as they appear in the JSON UI schema and in the collected
form values.  The constructor `num` covers Python ints and floats (modelled
exactly as rationals, since the code only parses, compares, and clamps
them and never does lossy float arithmetic); `other` stands for any
remaining JSON value (array, object) on which the Python builtins float()
and int() raise a TypeError.
-/
inductive JVal where
  | num (q : ℚ)
  | str (s : String)
  | boolean (b : Bool)
  | null
  | other
deriving DecidableEq

/-- Numeric value of a list of decimal digit characters, most significant first. -/
def natOfDigits (cs : List Char) : ℕ :=
  cs.foldl (fun acc c => acc * 10 + (c.toNat - 48)) 0

/-- True when the list is made of decimal digits only. -/
def allDigits (cs : List Char) : Bool :=
  cs.all Char.isDigit

/--
Parser for an unsigned decimal literal, modelling the core of the Python
float() builtin on strings: digits with an optional single decimal point,
where at least one digit must be present (so "1", "1.", ".5", "1.5" parse
and "", ".", "abc" do not).  Exponent forms and inf/nan are not modelled;
no claim depends on them.
-/
def parseUnsignedFloat (cs : List Char) : Option ℚ :=
  let ip := cs.takeWhile (fun c => c ≠ '.')
  let rest := cs.dropWhile (fun c => c ≠ '.')
  match rest with
  | [] =>
      if ip ≠ [] ∧ allDigits ip then some (natOfDigits ip) else none
  | _ :: fp =>
      if fp.contains '.' then none
      else if (ip ≠ [] ∨ fp ≠ []) ∧ allDigits ip ∧ allDigits fp then
        some ((natOfDigits ip : ℚ) + (natOfDigits fp : ℚ) / ((10 : ℚ) ^ fp.length))
      else none

/-- Removal of leading and trailing whitespace from a character list,
modelling the stripping done by the numeric Python builtins. -/
def trimChars (cs : List Char) : List Char :=
  ((cs.dropWhile Char.isWhitespace).reverse.dropWhile Char.isWhitespace).reverse

/-- Model of the Python float() builtin applied to a string: optional sign
followed by an unsigned decimal literal, leading and trailing whitespace
stripped. -/
def pyFloatOfString (s : String) : Option ℚ :=
  match trimChars s.data with
  | '+' :: rest => parseUnsignedFloat rest
  | '-' :: rest => (parseUnsignedFloat rest).map Neg.neg
  | cs => parseUnsignedFloat cs

/-- Model of the Python float() builtin on schema values: numbers pass
through, booleans become 0 or 1, strings are parsed, and None, arrays and
objects raise (result none). -/
def pyFloat : JVal → Option ℚ
  | .num q => some q
  | .boolean b => some (if b then 1 else 0)
  | .str s => pyFloatOfString s
  | .null => none
  | .other => none

/-- Truncation toward zero, the rounding used by the Python int() builtin
on floats. -/
def pyTrunc (q : ℚ) : ℤ :=
  if 0 ≤ q then ⌊q⌋ else ⌈q⌉

/-- Model of the Python int() builtin applied to a string: optional sign
followed by decimal digits only (so int("3.5") raises, result none). -/
def pyIntOfString (s : String) : Option ℤ :=
  match trimChars s.data with
  | '+' :: rest =>
      if rest ≠ [] ∧ allDigits rest then some (natOfDigits rest : ℤ) else none
  | '-' :: rest =>
      if rest ≠ [] ∧ allDigits rest then some (-(natOfDigits rest : ℤ)) else none
  | cs =>
      if cs ≠ [] ∧ allDigits cs then some (natOfDigits cs : ℤ) else none

/-- Model of the Python int() builtin on schema values. -/
def pyInt : JVal → Option ℤ
  | .num q => some (pyTrunc q)
  | .boolean b => some (if b then 1 else 0)
  | .str s => pyIntOfString s
  | .null => none
  | .other => none

/-- Python truthiness of a scalar value, used for the checkbox default and
for the emptiness test on option lists. -/
def pyTruthy : JVal → Bool
  | .num q => q ≠ 0
  | .str s => s ≠ ""
  | .boolean b => b
  | .null => false
  | .other => true

/-- Rendering of a scalar by the Python str() builtin, used for the
default of free-text inputs.  The exact digits of the float rendering are
irrelevant to every claim; what matters is that the result is a string. -/
def pyStr : JVal → String
  | .num q => if q.den = 1 then toString q.num else toString q
  | .str s => s
  | .boolean b => if b then "True" else "False"
  | .null => "None"
  | .other => "object"

/--
One field descriptor of a UI schema, the dictionary consumed by
generate_form_from_schema in src/streamlit_app/app.py.  The key name is
required by the code (field["name"] would raise otherwise); every other
key is read with .get and so is optional here.
-/
structure Field where
  name : String
  label : Option String := none
  input_type : Option String := none
  min : Option JVal := none
  max : Option JVal := none
  default : Option JVal := none
  options : Option (List JVal) := none
deriving DecidableEq

/-- UI schema: the fields key is optional, mirroring the guard
(schema and "fields" in schema) at the top of generate_form_from_schema. -/
structure Schema where
  fields : Option (List Field) := none
deriving DecidableEq

/--
Coercion step of the number branch (app.py lines 190-192): the Python
expression float(v) if v is not None else dflt.  An explicit JSON null is
replaced by the fallback constant without attempting float(); every other
value goes through float(), whose failure is reported as none.
-/
def coerceBound (v : JVal) (dflt : ℚ) : Option ℚ :=
  match v with
  | .null => some dflt
  | v => pyFloat v

/--
Computation of (min value, max value, initial value) for a number field,
translated from app.py lines 184-195.  The raw values come from .get with
defaults 0.0, 1000.0 and the raw min; the try block coerces min, then max,
then default, clamping the default with max(min, min(max, default)); any
coercion failure falls into the bare except, which substitutes
(0.0, 1000.0, 0.0).
-/
def numberParams (f : Field) : ℚ × ℚ × ℚ :=
  let minRaw := f.min.getD (.num 0)
  let maxRaw := f.max.getD (.num 1000)
  let defRaw := f.default.getD minRaw
  match coerceBound minRaw 0 with
  | none => (0, 1000, 0)
  | some m =>
    match coerceBound maxRaw 1000 with
    | none => (0, 1000, 0)
    | some mx =>
      match coerceBound defRaw m with
      | none => (0, 1000, 0)
      | some d => (m, mx, max m (min mx d))

/--
One user interaction with a rendered widget.  A widget only honours the
action kind that matches it (a numeric entry for number inputs, a typed
string for free-text inputs, an option index for select boxes, a toggle
for checkboxes); any other action leaves the widget at its initial value,
and numeric widgets keep the entered value inside their bounds, as the
Streamlit frontend does.
-/
inductive UserAct where
  | typed (s : String)
  | picked (n : ℕ)
  | setNum (q : ℚ)
  | toggled (b : Bool)
deriving DecidableEq

/--
Value stored into form_values for one field, translated from the body of
the loop in generate_form_from_schema (app.py lines 176-228).  The result
is an Except because the slider branch applies int() to min, max and
default with no surrounding try, so a coercion failure there propagates
out of the renderer; every other branch is total.  The layout columns and
the widget labels are presentational only and are not modelled.
-/
def renderFieldWith (f : Field) (u : Option UserAct) : Except Unit JVal :=
  let input_type := f.input_type.getD "text"
  if input_type = "number" then
    let p := numberParams f
    let v : ℚ :=
      match u with
      | some (.setNum q) => max p.1 (min p.2.1 q)
      | _ => p.2.2
    .ok (.num v)
  else if input_type = "dropdown" then
    match f.options.getD [] with
    | [] =>
        .ok (.str (match u with | some (.typed s) => s | _ => ""))
    | o :: rest =>
        .ok (match u with
          | some (.picked n) => (o :: rest).getD n o
          | _ => o)
  else if input_type = "slider" then
    match pyInt (f.min.getD (.num 0)), pyInt (f.max.getD (.num 100)),
          pyInt (f.default.getD (.num 50)) with
    | some lo, some hi, some d =>
        .ok (.num
          (match u with
           | some (.setNum q) => ((max lo (min hi (pyTrunc q)) : ℤ) : ℚ)
           | _ => (d : ℚ)))
    | _, _, _ => .error ()
  else if input_type = "checkbox" then
    .ok (.boolean
      (match u with
       | some (.toggled b) => b
       | _ => pyTruthy (f.default.getD (.boolean false))))
  else
    .ok (.str
      (match u with
       | some (.typed s) => s
       | _ => pyStr (f.default.getD (.str ""))))

/-- Sequential rendering of the field list, accumulating the (name, value)
pairs of form_values in declaration order; the first uncaught widget
exception aborts the pass. -/
def renderFields (env : String → Option UserAct) : List Field → Except Unit (List (String × JVal))
  | [] => .ok []
  | f :: fs =>
    match renderFieldWith f (env f.name) with
    | .error e => .error e
    | .ok v =>
      match renderFields env fs with
      | .error e => .error e
      | .ok rest => .ok ((f.name, v) :: rest)

/-- Entry point of the Form Renderer, translated from
generate_form_from_schema: a schema without a fields key yields an empty
mapping; otherwise each field is rendered in order. -/
def generate_form_from_schema (s : Schema) (env : String → Option UserAct) :
    Except Unit (List (String × JVal)) :=
  match s.fields with
  | none => .ok []
  | some fs => renderFields env fs

/--
Failure classes of a preprocessing transform, matching the except clauses
of the prediction block in run_legacy_ui (app.py lines 290-302): ValueError
and TypeError trigger the categorical fallback, any other exception
escapes to the outer handler.
-/
inductive PErr where
  | valueError
  | typeError
  | otherError
deriving DecidableEq

/-- Single-row tabular input assembled from the form values, column order
equal to field declaration order (pd.DataFrame([form_values])). -/
abbrev Row := List (String × JVal)

/--
Categorical fallback encoding from run_legacy_ui (app.py lines 276-287):
on the single-row frame built from the form values, a column whose value
is a string is replaced by its pandas category code, which for a
one-element column is the small integer 0; every other column is left
unchanged.
-/
def encode_categorical (row : Row) : Row :=
  row.map (fun p =>
    match p.2 with
    | .str _ => (p.1, JVal.num 0)
    | v => (p.1, v))

/--
Predictor handle loaded from model.pkl: a required inference entry point
(model.predict, composed with the [0] indexing of its result) and an
optional probability entry point (model.predict_proba, present exactly
when hasattr finds it, returning the class-probability vector of the
single row).  Either entry point may raise, modelled by the error case.
-/
structure Predictor where
  predict : Row → Except Unit JVal
  predict_proba : Option (Row → Except Unit (List ℚ))

/-- Outcome of one press of the prediction button: either the inline
error message of the outer exception handler, or a displayed prediction
with an optional confidence. -/
inductive PredOutcome where
  | failureMessage
  | result (prediction : JVal) (confidence : Option ℚ)
deriving DecidableEq

/--
Preprocessing stage of run_legacy_ui (app.py lines 289-305).  With a
preprocessor present, transform the raw row; on ValueError or TypeError,
encode categoricals and retry; if the retry raises anything, use the
encoded values directly.  Any other exception class escapes (to the outer
handler).  Without a preprocessor, encode categoricals unconditionally.
-/
def applyPreprocessing (pre : Option (Row → Except PErr Row)) (input_df : Row) :
    Except PErr Row :=
  match pre with
  | some preprocessor =>
    match preprocessor input_df with
    | .ok r => .ok r
    | .error e =>
      match e with
      | .valueError | .typeError =>
        let input_encoded := encode_categorical input_df
        (match preprocessor input_encoded with
         | .ok r => .ok r
         | .error _ => .ok input_encoded)
      | .otherError => .error .otherError
  | none => .ok (encode_categorical input_df)

/--
Prediction Executor, translated from the button handler of run_legacy_ui
(app.py lines 270-332): preprocess, predict taking the first result, then
best-effort confidence (max of the probability vector; any failure there,
including an empty vector making max raise, leaves confidence absent).
Every exception reaching the outer handler becomes the failure message.
-/
def run_prediction (pre : Option (Row → Except PErr Row)) (model : Predictor)
    (form_values : Row) : PredOutcome :=
  match applyPreprocessing pre form_values with
  | .error _ => .failureMessage
  | .ok input_processed =>
    match model.predict input_processed with
    | .error _ => .failureMessage
    | .ok prediction =>
      let probability : Option ℚ :=
        match model.predict_proba with
        | none => none
        | some f =>
          match f input_processed with
          | .error _ => none
          | .ok proba => proba.max?
      .result prediction probability

/--
Path normalization shared by download_model (models.py lines 77-81),
get_model_schema (line 129) and internal_download_model (line 208): a
stored package path starting with the seven characters of "models/" has
that prefix sliced off (path[7:]) before the object-store lookup, and any
other path is used unchanged.  Python string slicing and startswith are
modelled on the character list of the string.
-/
def corrected_path (model_package_path : String) : String :=
  if ("models/".data).isPrefixOf model_package_path.data then
    String.mk (model_package_path.data.drop 7)
  else model_package_path

/-- Outcome of opening the downloaded bytes as a zip archive and looking
for ui_schema.json in it: the archive may be invalid (zipfile raises), or
valid with the entry absent, unparsable, or parsed to a schema document. -/
inductive ZipRes where
  | badArchive
  | archive (entry : Option (Except Unit Schema))

/-- Outcome of minio_service.download_bytes for one lookup key: the call
may raise, return a falsy payload, or return bytes whose archive content
is described by ZipRes. -/
inductive DownloadRes where
  | raise
  | empty
  | content (z : ZipRes)

/-- Fields of an experiment row that get_model_schema reads, with
model_package_path standing for (experiment.results or \x7b\x7d).get of the
package path key. -/
structure ExperimentRec where
  name : String
  target_column : Option String
  model_package_path : Option String
deriving DecidableEq

/-- Body of the 200 response of get_model_schema. -/
structure SchemaResponse where
  model_id : ℕ
  model_name : String
  target_column : Option String
  ui_schema : Schema
deriving DecidableEq

/-- Default schema document used by get_model_schema, a record whose
fields list is present and empty. -/
def emptyFieldsSchema : Schema := { fields := some [] }

/--
Model schema endpoint, translated from get_model_schema (models.py lines
105-150).  A missing experiment is a 404 with no schema body.  Otherwise
ui_schema starts as the empty-fields document; it is replaced only when a
non-empty package path is on file, the store lookup on the corrected path
returns content, the content is a valid archive holding a ui_schema.json
entry, and that entry parses; every failure along the way is swallowed by
the except clause (or never enters the if), leaving the default in place.
The response is 200 in every such case.
-/
def get_model_schema (exp : Option ExperimentRec) (store : String → DownloadRes)
    (model_id : ℕ) : ℕ × Option SchemaResponse :=
  match exp with
  | none => (404, none)
  | some e =>
    let ui : Schema :=
      match e.model_package_path with
      | none => emptyFieldsSchema
      | some p =>
        if p = "" then emptyFieldsSchema
        else
          match store (corrected_path p) with
          | .raise => emptyFieldsSchema
          | .empty => emptyFieldsSchema
          | .content .badArchive => emptyFieldsSchema
          | .content (.archive none) => emptyFieldsSchema
          | .content (.archive (some (.error _))) => emptyFieldsSchema
          | .content (.archive (some (.ok v))) => v
    (200, some { model_id := model_id, model_name := e.name,
                 target_column := e.target_column, ui_schema := ui })

/-- Set of temporary directories currently existing on disk, named by
natural numbers. -/
abbrev Fs := Finset ℕ

/-- Fresh directory name chosen by tempfile.TemporaryDirectory, distinct
from every existing one. -/
def freshDir (fs : Fs) : ℕ := fs.sup id + 1

/-- Transport response of the internal download endpoint as seen by the
loader: only the status code matters to the control flow. -/
structure HttpResponse where
  status : ℕ
deriving DecidableEq

/-- Result of load_model_package paired with the filesystem state after
the call: either the (None, None, message) failure triple or a live
temporary directory handle. -/
inductive LoadOutcome where
  | failure (fs : Fs)
  | success (dir : ℕ) (fs : Fs)
deriving DecidableEq

/--
Model Package Loader, translated from load_model_package (app.py lines
85-116).  The request may raise (connection error) or return a response;
a non-200 status returns the failure triple before any directory is
created.  On a 200 response a fresh temporary directory is created; if
opening or extracting the archive raises, the exception is caught, the
function returns the failure triple, and the now unreferenced
TemporaryDirectory object is finalized by CPython at that return, removing
the directory; on success the live handle and path are returned.
-/
def load_model_package (req : Except Unit HttpResponse) (unzip : Except Unit Unit)
    (fs : Fs) : LoadOutcome :=
  match req with
  | .error _ => .failure fs
  | .ok resp =>
    if resp.status ≠ 200 then .failure fs
    else
      let d := freshDir fs
      let fs1 := insert d fs
      match unzip with
      | .error _ => .failure (fs1.erase d)
      | .ok _ => .success d fs1

/--
Filesystem effect of one full render pass of main (app.py lines 369-469):
load the package; on failure show the error and return (no directory is
live); on success run the body (bundled script or legacy UI, which may
itself raise) inside try/finally whose finally calls cleanup() on the
temporary directory handle, so the directory is erased regardless of the
body outcome.
-/
def main_render (req : Except Unit HttpResponse) (unzip : Except Unit Unit)
    (body : Except Unit Unit) (fs : Fs) : Fs :=
  match load_model_package req unzip fs with
  | .failure fs1 => fs1
  | .success d fs1 =>
    match body with
    | .ok _ => fs1.erase d
    | .error _ => fs1.erase d

/-- Observable actions of the bundled-app dispatch in main. -/
inductive StAction where
  | execBundledScript
  | reportSetupError
  | reportExecError
  | runLegacyUi (dir : ℕ)
  | sourceTextSubstitution
deriving DecidableEq

/--
Dispatch on a bundled streamlit_app.py, translated from main (app.py
lines 386-461).  Without a bundled script the legacy UI runs directly.
With one, a setup failure (sys.path insertion, reading the file) is
caught, reported, and followed by the legacy UI; a failure of the AST
compile or exec step is caught by the inner handler, reported, and
likewise followed by the legacy UI on the same unpacked directory.  No
branch performs a textual substitution on the script source: the
sourceTextSubstitution action exists only to state that absence.
-/
def bundled_dispatch (hasBundled : Bool) (setup : Except Unit Unit)
    (execScript : Except Unit Unit) (dir : ℕ) : List StAction :=
  if hasBundled then
    match setup with
    | .error _ => [.reportSetupError, .runLegacyUi dir]
    | .ok _ =>
      match execScript with
      | .error _ => [.execBundledScript, .reportExecError, .runLegacyUi dir]
      | .ok _ => [.execBundledScript]
  else [.runLegacyUi dir]

/-
Helper lemmas shared by the claim theorems.
-/

/-- Freshly chosen temporary directory names do not collide with existing
ones. -/
theorem freshDir_not_mem (fs : Fs) : freshDir fs ∉ fs := by
  intro h
  have hle : id (freshDir fs) ≤ fs.sup id := Finset.le_sup h
  simp only [freshDir, id_eq] at hle
  omega

/-- Upper-bound property of List.max? over the rationals. -/
theorem ratMaxLe {l : List ℚ} {m : ℚ} (h : l.max? = some m) :
    ∀ q ∈ l, q ≤ m := by
  intro q hq
  exact (List.max?_le_iff (fun a b c => max_le_iff) h).mp le_rfl q hq

/-- Indexing view of a successful render pass: the value list is pointwise
the successful render of the corresponding field. -/
theorem renderFields_ok_get (env : String → Option UserAct) :
    ∀ (fields : List Field) (l : List (String × JVal)),
      renderFields env fields = .ok l →
      ∀ (i : ℕ) (f : Field), fields[i]? = some f →
        ∃ v, renderFieldWith f (env f.name) = .ok v ∧ l[i]? = some (f.name, v) := by
  intro fields
  induction fields with
  | nil => intro l _ i f hf; simp at hf
  | cons g gs ih =>
    intro l h i f hf
    cases hg : renderFieldWith g (env g.name) with
    | error e => simp [renderFields, hg] at h
    | ok v =>
      cases hrest : renderFields env gs with
      | error e => simp [renderFields, hg, hrest] at h
      | ok rest =>
        simp only [renderFields, hg, hrest] at h
        cases h
        cases i with
        | zero =>
          simp only [List.getElem?_cons_zero, Option.some.injEq] at hf
          subst hf
          exact ⟨v, hg, by simp⟩
        | succ n =>
          simp only [List.getElem?_cons_succ] at hf ⊢
          exact ih rest hrest n f hf

/--
C1: for every invocation of the Model Package Loader together with the
surrounding render pass of main — whether the transport request raises,
the response is non-success, unpacking raises, or everything succeeds and
the body runs (and possibly raises) — the filesystem after the pass equals
the filesystem before it, and in particular the temporary directory the
invocation would create no longer exists.
-/
theorem loader_temp_dir_removed (req : Except Unit HttpResponse)
    (unzip : Except Unit Unit) (body : Except Unit Unit) (fs : Fs) :
    main_render req unzip body fs = fs ∧
    freshDir fs ∉ main_render req unzip body fs := by
  have hfresh := freshDir_not_mem fs
  have hmain : main_render req unzip body fs = fs := by
    cases req with
    | error e => simp [main_render, load_model_package]
    | ok resp =>
      by_cases h : resp.status = 200
      · cases unzip with
        | error e =>
          simp [main_render, load_model_package, h, Finset.erase_insert hfresh]
        | ok u =>
          cases body with
          | error e =>
            simp [main_render, load_model_package, h, Finset.erase_insert hfresh]
          | ok b =>
            simp [main_render, load_model_package, h, Finset.erase_insert hfresh]
      · simp [main_render, load_model_package, h]
  exact ⟨hmain, by rw [hmain]; exact hfresh⟩

/--
C5: the download operations strip a leading seven-character "models/"
prefix from the stored package path before the object-store lookup (so the
lookup key is exactly the remainder after that prefix), and a path without
the prefix is used unchanged.
-/
theorem legacy_prefix_stripped (p : String) :
    (("models/".data).isPrefixOf p.data = true →
      corrected_path p = String.mk (p.data.drop 7) ∧
      "models/".data ++ (corrected_path p).data = p.data) ∧
    (("models/".data).isPrefixOf p.data = false → corrected_path p = p) := by
  constructor
  · intro h
    obtain ⟨t, ht⟩ := List.isPrefixOf_iff_prefix.mp h
    refine ⟨by simp [corrected_path, h], ?_⟩
    simp only [corrected_path, h, if_true]
    show "models/".data ++ p.data.drop 7 = p.data
    rw [← ht]
    have h7 : ("models/".data).length = 7 := rfl
    rw [← h7, List.drop_left]
  · intro h
    simp [corrected_path, h]

/-- Witness for C5 at the two concrete paths named by the specification. -/
theorem legacy_prefix_stripped_witness :
    corrected_path "models/abc/model.zip" = "abc/model.zip" ∧
    corrected_path "abc/model.zip" = "abc/model.zip" := by
  have h1 := (legacy_prefix_stripped "models/abc/model.zip").1 (by decide)
  have h2 := (legacy_prefix_stripped "abc/model.zip").2 (by decide)
  exact ⟨h1.1.trans (by decide), h2⟩

/--
C6: when a package bundles a streamlit_app.py and compiling or executing
it fails, the failure is reported as an error message and control reverts
to the generic legacy Form Renderer on the same unpacked directory; no
branch of the dispatch ever performs a textual substitution of the script
source.
-/
theorem bundled_failure_reverts_to_legacy :
    (∀ dir : ℕ, bundled_dispatch true (.ok ()) (.error ()) dir =
      [.execBundledScript, .reportExecError, .runLegacyUi dir]) ∧
    (∀ (hasBundled : Bool) (setup execScript : Except Unit Unit) (dir : ℕ),
      StAction.sourceTextSubstitution ∉ bundled_dispatch hasBundled setup execScript dir) := by
  constructor
  · intro dir; rfl
  · intro b s e d
    cases b <;> cases s <;> cases e <;> simp [bundled_dispatch]

/--
C4: a number field for which the coercion step of any of min, max or
default fails falls back to the range 0.0 to 1000.0 with initial value
0.0; when every coercion succeeds, the parameters are the coerced bounds
with the default clamped by max(min, min(max, default)) — in particular
the initial value lies between min and max whenever min is at most max —
and the rendered initial value is exactly the computed one.
-/
theorem number_field_fallback_and_clamp (f : Field)
    (hty : f.input_type = some "number") :
    ((coerceBound (f.min.getD (.num 0)) 0 = none ∨
      coerceBound (f.max.getD (.num 1000)) 1000 = none ∨
      (∃ m, coerceBound (f.min.getD (.num 0)) 0 = some m ∧
            coerceBound (f.default.getD (f.min.getD (.num 0))) m = none)) →
      numberParams f = (0, 1000, 0)) ∧
    (∀ m mx d, coerceBound (f.min.getD (.num 0)) 0 = some m →
      coerceBound (f.max.getD (.num 1000)) 1000 = some mx →
      coerceBound (f.default.getD (f.min.getD (.num 0))) m = some d →
      numberParams f = (m, mx, max m (min mx d)) ∧
      (m ≤ mx → m ≤ max m (min mx d) ∧ max m (min mx d) ≤ mx)) ∧
    renderFieldWith f none = .ok (.num (numberParams f).2.2) := by
  refine ⟨?_, ?_, ?_⟩
  · rintro (h | h | ⟨m, hm, hd⟩)
    · simp [numberParams, h]
    · cases hmin : coerceBound (f.min.getD (.num 0)) 0 with
      | none => simp [numberParams, hmin]
      | some m => simp [numberParams, hmin, h]
    · cases hmax : coerceBound (f.max.getD (.num 1000)) 1000 with
      | none => simp [numberParams, hm, hmax]
      | some mx => simp [numberParams, hm, hmax, hd]
  · intro m mx d hm hmx hd
    refine ⟨by simp [numberParams, hm, hmx, hd], fun hle => ⟨le_max_left _ _, ?_⟩⟩
    exact max_le hle (min_le_left _ _)
  · simp [renderFieldWith, hty]

/-- Witness for C4: a non-numeric min string triggers the fallback triple,
and a well-formed field keeps its clamped parameters. -/
theorem number_field_fallback_and_clamp_witness :
    numberParams { name := "x", input_type := some "number",
                   min := some (.str "abc") } = (0, 1000, 0) ∧
    numberParams { name := "y", input_type := some "number",
                   min := some (.num 1), max := some (.num 10),
                   default := some (.num 99) } = (1, 10, max 1 (min 10 99)) := by
  constructor
  · exact (number_field_fallback_and_clamp _ rfl).1 (Or.inl (by decide))
  · exact ((number_field_fallback_and_clamp
      { name := "y", input_type := some "number", min := some (.num 1),
        max := some (.num 10), default := some (.num 99) } rfl).2.1
      1 10 99 (by decide) (by decide) (by decide)).1

/--
C7: a dropdown field whose options list is empty degrades to a free-text
input, so in any successful render pass the value recorded for that field
is a string, whatever the user interaction was.
-/
theorem empty_dropdown_free_text (fields : List Field)
    (env : String → Option UserAct) (l : List (String × JVal)) (i : ℕ) (f : Field)
    (hok : generate_form_from_schema { fields := some fields } env = .ok l)
    (hf : fields[i]? = some f)
    (hty : f.input_type = some "dropdown")
    (hopts : f.options.getD [] = []) :
    ∃ t, l[i]? = some (f.name, .str t) := by
  have hok2 : renderFields env fields = .ok l := hok
  obtain ⟨v, hv, hl⟩ := renderFields_ok_get env fields l hok2 i f hf
  simp only [renderFieldWith, hty, hopts] at hv
  cases henv : env f.name with
  | none =>
    simp only [henv, reduceCtorEq] at hv
    exact ⟨_, by rw [hl, ← Except.ok.inj hv]⟩
  | some act =>
    cases act <;> simp only [henv] at hv <;>
      exact ⟨_, by rw [hl, ← Except.ok.inj hv]⟩

/-- Witness for C7 at a one-field schema with an empty options list. -/
theorem empty_dropdown_free_text_witness :
    ∃ t, ([(("f" : String), JVal.str "")])[0]? = some ("f", JVal.str t) := by
  exact empty_dropdown_free_text
    [{ name := "f", input_type := some "dropdown", options := some [] }]
    (fun _ => none) [("f", JVal.str "")] 0
    { name := "f", input_type := some "dropdown", options := some [] }
    rfl rfl rfl rfl

/--
C8: on a schema made only of number fields whose numeric min, max and
default satisfy min at most default at most max, the initial render
succeeds and assigns every field exactly its declared default.
-/
theorem number_defaults_preserved (fields : List Field)
    (h : ∀ f ∈ fields, f.input_type = some "number" ∧
      ∃ m mx d : ℚ, f.min = some (.num m) ∧ f.max = some (.num mx) ∧
        f.default = some (.num d) ∧ m ≤ d ∧ d ≤ mx) :
    generate_form_from_schema { fields := some fields } (fun _ => none) =
      .ok (fields.map (fun f => (f.name, f.default.getD JVal.null))) := by
  show renderFields (fun _ => none) fields = _
  induction fields with
  | nil => rfl
  | cons f fs ih =>
    obtain ⟨hty, m, mx, d, hm, hmx, hd, hle1, hle2⟩ := h f (by simp)
    have hclamp : max m (min mx d) = d := by
      rw [min_eq_right hle2, max_eq_right hle1]
    have hf : renderFieldWith f none = .ok (.num d) := by
      simp [renderFieldWith, hty, numberParams, hm, hmx, hd, coerceBound,
        pyFloat, hclamp]
    have ih2 := ih (fun g hg => h g (by simp [hg]))
    simp [renderFields, hf, ih2, hd]

/-- Witness for C8 at a one-field schema with bounds 1, 10 and default 5. -/
theorem number_defaults_preserved_witness :
    generate_form_from_schema
      { fields := some [{ name := "a", input_type := some "number",
                          min := some (.num 1), max := some (.num 10),
                          default := some (.num 5) }] }
      (fun _ => none) = .ok [("a", JVal.num 5)] := by
  have h := number_defaults_preserved
    [{ name := "a", input_type := some "number", min := some (.num 1),
       max := some (.num 10), default := some (.num 5) }]
    (by
      intro f hf
      simp only [List.mem_singleton] at hf
      subst hf
      exact ⟨rfl, 1, 10, 5, rfl, rfl, rfl, by norm_num, by norm_num⟩)
  exact h

/--
C9: a slider field coerces min, max and default with int() and has no
fallback range: if any coercion fails the field render raises (and so does
the whole render pass containing the field), while full success yields the
integer default with no substituted range.
-/
theorem slider_no_fallback (f : Field) (hty : f.input_type = some "slider") :
    ((pyInt (f.min.getD (.num 0)) = none ∨
      pyInt (f.max.getD (.num 100)) = none ∨
      pyInt (f.default.getD (.num 50)) = none) →
      (∀ u, renderFieldWith f u = .error ()) ∧
      (∀ env fields, f ∈ fields → renderFields env fields = .error ())) ∧
    (∀ lo hi d, pyInt (f.min.getD (.num 0)) = some lo →
      pyInt (f.max.getD (.num 100)) = some hi →
      pyInt (f.default.getD (.num 50)) = some d →
      renderFieldWith f none = .ok (.num (d : ℚ))) := by
  constructor
  · intro h
    have herr : ∀ u, renderFieldWith f u = .error () := by
      intro u
      cases hmin : pyInt (f.min.getD (.num 0)) with
      | none => simp [renderFieldWith, hty, hmin]
      | some lo =>
        cases hmax : pyInt (f.max.getD (.num 100)) with
        | none => simp [renderFieldWith, hty, hmin, hmax]
        | some hi =>
          cases hdef : pyInt (f.default.getD (.num 50)) with
          | none => simp [renderFieldWith, hty, hmin, hmax, hdef]
          | some d => simp [hmin, hmax, hdef] at h
    refine ⟨herr, ?_⟩
    intro env fields hmem
    induction fields with
    | nil => cases hmem
    | cons g gs ih =>
      rcases List.mem_cons.mp hmem with rfl | hmem2
      · simp [renderFields, herr (env f.name)]
      · cases hg : renderFieldWith g (env g.name) with
        | error e => simp [renderFields, hg]
        | ok v => simp [renderFields, hg, ih hmem2]
  · intro lo hi d hmin hmax hdef
    simp [renderFieldWith, hty, hmin, hmax, hdef]

/-- Witness for C9: a non-numeric slider minimum aborts the render of the
field and of a schema containing it, while integer bounds succeed. -/
theorem slider_no_fallback_witness :
    renderFieldWith { name := "s", input_type := some "slider",
                      min := some (.str "abc") } none = .error () ∧
    renderFields (fun _ => none)
      [{ name := "s", input_type := some "slider",
         min := some (.str "abc") }] = .error () ∧
    renderFieldWith { name := "t", input_type := some "slider",
                      min := some (.num 0), max := some (.num 9),
                      default := some (.num 3) } none = .ok (.num 3) := by
  have h := slider_no_fallback
    { name := "s", input_type := some "slider", min := some (.str "abc") } rfl
  have hfail := h.1 (Or.inl (by decide))
  refine ⟨hfail.1 none, hfail.2 (fun _ => none) _ (by simp), ?_⟩
  have h2 := slider_no_fallback
    { name := "t", input_type := some "slider", min := some (.num 0),
      max := some (.num 9), default := some (.num 3) } rfl
  exact h2.2 0 9 3 (by decide) (by decide) (by decide)

/--
C2: when the preprocessing transform raises a type or value error on the
assembled single-row input, the executor encodes the text-valued columns
to small-integer category codes and retries the transform on the encoded
row; if the retry also fails, the encoded values are used directly as the
inference input; either way, once the predictor answers, a prediction is
produced instead of the preprocessing exception propagating.
-/
theorem preprocess_fallback_recovers (preprocessor : Row → Except PErr Row)
    (model : Predictor) (row : Row) (e : PErr)
    (hfail : preprocessor row = .error e)
    (hkind : e = .valueError ∨ e = .typeError) :
    (∀ r, preprocessor (encode_categorical row) = .ok r →
        applyPreprocessing (some preprocessor) row = .ok r) ∧
    (∀ e2, preprocessor (encode_categorical row) = .error e2 →
        applyPreprocessing (some preprocessor) row = .ok (encode_categorical row)) ∧
    (∀ r p, applyPreprocessing (some preprocessor) row = .ok r →
        model.predict r = .ok p →
        ∃ c, run_prediction (some preprocessor) model row = .result p c) := by
  refine ⟨?_, ?_, ?_⟩
  · intro r hr
    rcases hkind with rfl | rfl <;> simp [applyPreprocessing, hfail, hr]
  · intro e2 hr
    rcases hkind with rfl | rfl <;> simp [applyPreprocessing, hfail, hr]
  · intro r p hpre hpred
    cases hproba : model.predict_proba with
    | none => exact ⟨none, by simp [run_prediction, hpre, hpred, hproba]⟩
    | some g =>
      cases hg : g r with
      | error e2 =>
        exact ⟨none, by simp [run_prediction, hpre, hpred, hproba, hg]⟩
      | ok probs =>
        exact ⟨probs.max?, by simp [run_prediction, hpre, hpred, hproba, hg]⟩

/-- Witness for C2: a transform that rejects the raw row holding the
string value unseen_category but accepts the encoded row still yields a
prediction. -/
theorem preprocess_fallback_recovers_witness :
    ∃ c, run_prediction
      (some (fun r => if r = [("cat", JVal.str "unseen_category")]
                      then Except.error PErr.valueError else Except.ok r))
      { predict := fun _ => Except.ok (JVal.str "yes"), predict_proba := none }
      [("cat", JVal.str "unseen_category")] = .result (JVal.str "yes") c := by
  have h := preprocess_fallback_recovers
    (fun r => if r = [("cat", JVal.str "unseen_category")]
              then Except.error PErr.valueError else Except.ok r)
    { predict := fun _ => Except.ok (JVal.str "yes"), predict_proba := none }
    [("cat", JVal.str "unseen_category")] PErr.valueError rfl (Or.inl rfl)
  exact h.2.2 _ _ (h.1 _ rfl) rfl

/--
C3: around a successful preprocessing and inference call, an absent
probability entry point or one that raises leaves the returned prediction
intact with confidence absent, and a successful probability call reports
the maximum class probability as confidence; a confidence failure never
turns the prediction into a failure.
-/
theorem confidence_best_effort (pre : Option (Row → Except PErr Row))
    (model : Predictor) (row input_processed : Row) (p : JVal)
    (hpre : applyPreprocessing pre row = .ok input_processed)
    (hpred : model.predict input_processed = .ok p) :
    (model.predict_proba = none →
      run_prediction pre model row = .result p none) ∧
    (∀ g, model.predict_proba = some g →
      (∀ e, g input_processed = .error e →
        run_prediction pre model row = .result p none) ∧
      (∀ probs, g input_processed = .ok probs →
        run_prediction pre model row = .result p probs.max? ∧
        ∀ q ∈ probs, ∀ c, probs.max? = some c → q ≤ c)) := by
  refine ⟨?_, ?_⟩
  · intro hnone
    simp [run_prediction, hpre, hpred, hnone]
  · intro g hg
    refine ⟨?_, ?_⟩
    · intro e he
      simp [run_prediction, hpre, hpred, hg, he]
    · intro probs hp
      refine ⟨by simp [run_prediction, hpre, hpred, hg, hp], ?_⟩
      intro q hq c hc
      exact ratMaxLe hc q hq

/-- Witness for C3: a predictor with inference but no probability entry
point, on a single numeric field with value 5.0, yields a prediction and
an explicit absence of confidence. -/
theorem confidence_best_effort_witness :
    run_prediction none
      { predict := fun _ => Except.ok (JVal.num 1), predict_proba := none }
      [("x", JVal.num 5)] = .result (JVal.num 1) none := by
  exact (confidence_best_effort none
    { predict := fun _ => Except.ok (JVal.num 1), predict_proba := none }
    [("x", JVal.num 5)] (encode_categorical [("x", JVal.num 5)])
    (JVal.num 1) rfl rfl).1 rfl

/--
C10: the model schema endpoint answers 200 for the owning user on an
existing model whatever happens while obtaining the schema; a missing or
empty package path, a raising or empty object-store fetch, an invalid
archive, an archive without a ui_schema.json entry, or an unparsable entry
all leave ui_schema at the empty-fields default inside the 200 response,
and only a fully successful fetch substitutes the parsed document; the
package error never reaches the caller.
-/
theorem schema_endpoint_always_200 (e : ExperimentRec)
    (store : String → DownloadRes) (mid : ℕ) :
    (get_model_schema (some e) store mid).1 = 200 ∧
    ∃ resp, (get_model_schema (some e) store mid).2 = some resp ∧
      resp.model_id = mid ∧ resp.model_name = e.name ∧
      resp.target_column = e.target_column ∧
      (e.model_package_path = none → resp.ui_schema = emptyFieldsSchema) ∧
      (∀ ppath, e.model_package_path = some ppath →
        (ppath = "" → resp.ui_schema = emptyFieldsSchema) ∧
        (ppath ≠ "" →
          (store (corrected_path ppath) = .raise →
            resp.ui_schema = emptyFieldsSchema) ∧
          (store (corrected_path ppath) = .empty →
            resp.ui_schema = emptyFieldsSchema) ∧
          (store (corrected_path ppath) = .content .badArchive →
            resp.ui_schema = emptyFieldsSchema) ∧
          (store (corrected_path ppath) = .content (.archive none) →
            resp.ui_schema = emptyFieldsSchema) ∧
          (∀ err, store (corrected_path ppath) =
              .content (.archive (some (.error err))) →
            resp.ui_schema = emptyFieldsSchema) ∧
          (∀ v, store (corrected_path ppath) =
              .content (.archive (some (.ok v))) →
            resp.ui_schema = v))) := by
  refine ⟨rfl, _, rfl, rfl, rfl, rfl, ?_, ?_⟩
  · intro hnone
    simp [get_model_schema, hnone]
  · intro ppath hpath
    refine ⟨?_, ?_⟩
    · intro hempty
      simp [get_model_schema, hpath, hempty]
    · intro hne
      refine ⟨?_, ?_, ?_, ?_, ?_, ?_⟩ <;>
        first
        | (intro hstore; simp [get_model_schema, hpath, hne, hstore])
        | (intro x hstore; simp [get_model_schema, hpath, hne, hstore])

/-- Witness for C10: a raising object store on a legacy-prefixed path
still produces a 200 with the empty-fields schema. -/
theorem schema_endpoint_always_200_witness :
    (get_model_schema
      (some { name := "m", target_column := none,
              model_package_path := some "models/x.zip" })
      (fun _ => DownloadRes.raise) 7).1 = 200 ∧
    ∃ resp, (get_model_schema
      (some { name := "m", target_column := none,
              model_package_path := some "models/x.zip" })
      (fun _ => DownloadRes.raise) 7).2 = some resp ∧
      resp.ui_schema = emptyFieldsSchema := by
  obtain ⟨h200, resp, hresp, _, _, _, _, hsome⟩ :=
    schema_endpoint_always_200
      { name := "m", target_column := none,
        model_package_path := some "models/x.zip" }
      (fun _ => DownloadRes.raise) 7
  refine ⟨h200, resp, hresp, ?_⟩
  exact ((hsome "models/x.zip" rfl).2 (by decide)).1 rfl

end InferX
